import Mathlib

/-!
Verification of the EIP review pipeline (`.certik/scripts/codex_eip_reviewer.py`
and `.certik/scripts/codex_runner.py`): a shallow embedding of the diff
splitter, the JSON-block extractor, the finding normalizer, the four review
stages, the comment builder and the orchestrator, together with theorems about
the properties the specification states for them.

The external pieces (the `codex` subprocess and Python's `json.loads`) are
modelled as explicit function parameters: `oracle : Prompt → Except String String`
stands for `run_codex` (which raises `RuntimeError` on a non-zero exit status,
modelled as `Except.error`), and `loads : String → Except String JVal` stands
for `json.loads` (which raises `json.JSONDecodeError` on unparsable text).
All pipeline code is embedded from the source, with Python runtime errors
(`AttributeError`, `TypeError`) made explicit as `Except.error`.
-/

namespace CodexReview

/-- A Python/JSON value as it appears in a decoded payload: `None`, booleans,
integers, strings, lists and dicts (dicts as association lists with the first
binding of a key authoritative). -/
inductive JVal where
  | null : JVal
  | bool (b : Bool) : JVal
  | num (n : Int) : JVal
  | str (s : String) : JVal
  | arr (l : List JVal) : JVal
  | obj (l : List (String × JVal)) : JVal
  deriving Repr

/-- Python truthiness of a value: `None`, `False`, `0`, `""`, `[]` and an
empty dict are falsy, everything else is truthy. -/
def truthy : JVal → Bool
  | .null => false
  | .bool b => b
  | .num n => n != 0
  | .str s => s ≠ ""
  | .arr l => !l.isEmpty
  | .obj l => !l.isEmpty

/-- Python `a or b`: the left value if it is truthy, else the right value. -/
def pyOr (a b : JVal) : JVal := if truthy a then a else b

/-- Python `d.get(k)` on a dict: the stored value, or `None` when absent. -/
def dget (kvs : List (String × JVal)) (k : String) : JVal :=
  match kvs with
  | [] => .null
  | kv :: rest => if kv.1 = k then kv.2 else dget rest k

/-- Python `d.get(k, default)` on a dict. -/
def dgetD (kvs : List (String × JVal)) (k : String) (d : JVal) : JVal :=
  match kvs with
  | [] => d
  | kv :: rest => if kv.1 = k then kv.2 else dgetD rest k d

/-- Python `s.upper()` on a string (ASCII, as all severity/verdict values
are). -/
def pyUpper (s : String) : String := String.mk (s.toList.map Char.toUpper)

/-- Python `s.strip()` on a string: remove leading and trailing whitespace. -/
def pyStrip (s : String) : String :=
  String.mk (((s.toList.dropWhile Char.isWhitespace).reverse.dropWhile
    Char.isWhitespace).reverse)

/-- Python `v.upper()`: succeeds only on strings; on any other value it raises
`AttributeError`, modelled as `Except.error`. -/
def pyUpperJ : JVal → Except String String
  | .str s => .ok (pyUpper s)
  | _ => .error "AttributeError: upper"

/-- Python `v.strip()`: succeeds only on strings; on any other value it raises
`AttributeError`. -/
def pyStripJ : JVal → Except String String
  | .str s => .ok (pyStrip s)
  | _ => .error "AttributeError: strip"

/-- Validity of the digit part of a Python integer literal string: digits with
single underscores strictly between digits. -/
def digitsOkGo : List Char → Bool
  | [] => false
  | [c] => c.isDigit
  | c :: rest =>
    if c.isDigit then digitsOkGo rest
    else if c = '_' then
      (match rest with
       | r :: _ => r.isDigit
       | [] => false) && digitsOkGo rest
    else false

/-- Whole digit-part check: nonempty, starts with a digit, and passes
`digitsOkGo` (so underscores appear only between digits). -/
def digitsOk (cs : List Char) : Bool :=
  match cs with
  | [] => false
  | c :: _ => c.isDigit && digitsOkGo cs

/-- Numeric value of a digit list, ignoring underscores. -/
def natOfDigits (cs : List Char) : Nat :=
  (cs.filter (fun c => c ≠ '_')).foldl (fun acc c => acc * 10 + (c.toNat - 48)) 0

/-- Python `int(s)` on a string: strips surrounding whitespace, allows one
sign, then a digit sequence (with single grouping underscores); anything else
raises `ValueError`, modelled as `none`. -/
def pyIntStr (s : String) : Option Int :=
  let cs := (pyStrip s).toList
  match cs with
  | '+' :: rest => if digitsOk rest then some (natOfDigits rest) else none
  | '-' :: rest => if digitsOk rest then some (-(natOfDigits rest : Int)) else none
  | rest => if digitsOk rest then some (natOfDigits rest) else none

/-- Python `int(v)` on a decoded value: identity on numbers, `1`/`0` on
booleans, string parsing on strings; `None`, lists and dicts raise
`TypeError`, modelled as `none`. -/
def pyIntOfJ : JVal → Option Int
  | .num n => some n
  | .bool b => some (if b then 1 else 0)
  | .str s => pyIntStr s
  | _ => none

/-- Python `repr(v)` for decoded values (also `str(v)` for non-strings). -/
def pyRepr : JVal → String
  | .null => "None"
  | .bool true => "True"
  | .bool false => "False"
  | .num n => toString n
  | .str s => "\x27" ++ s ++ "\x27"
  | .arr l => "[" ++ String.intercalate ", " (l.attach.map (fun x => pyRepr x.1)) ++ "]"
  | .obj l =>
      "\x7b" ++
        String.intercalate ", "
          (l.attach.map (fun kv => "\x27" ++ kv.1.1 ++ "\x27: " ++ pyRepr kv.1.2)) ++
      "\x7d"
decreasing_by
  · have := List.sizeOf_lt_of_mem x.2
    simp only [JVal.arr.sizeOf_spec]
    omega
  · have h1 := List.sizeOf_lt_of_mem kv.2
    have h2 : sizeOf kv.1.2 < sizeOf kv.1 := by
      obtain ⟨a, b⟩ := kv.1
      simp only [Prod.mk.sizeOf_spec]
      omega
    simp only [JVal.obj.sizeOf_spec]
    omega

/-- Python `str(v)` as used in f-string interpolation: strings unchanged,
other values via their repr. -/
def pyToStr : JVal → String
  | .str s => s
  | v => pyRepr v

/-- The string carried by a value when it is a string, else `""`. -/
def strOfJ : JVal → String
  | .str s => s
  | _ => ""

/-- A value that is either absent (`None`) or a string. -/
def strOrAbsent : JVal → Bool
  | .null => true
  | .str _ => true
  | _ => false

/-- A value that is a string whenever it is truthy (so operations that demand
a string cannot raise on it once it has passed a truthiness gate). -/
def strLike (v : JVal) : Bool :=
  match v with
  | .str _ => true
  | _ => !truthy v

/-- Splitting a character list at every `'\n'`. -/
def splitLinesGo (acc : List Char) : List Char → List String
  | [] => [String.mk acc]
  | c :: cs =>
    if c = '\n' then String.mk acc :: splitLinesGo [] cs
    else splitLinesGo (acc ++ [c]) cs

/-- Python `str.splitlines()` restricted to `"\n"` separators: no trailing
empty line for a trailing newline, and the empty string yields no lines. -/
def pySplitlines (s : String) : List String :=
  match s.toList with
  | [] => []
  | cs =>
    if cs.getLast? = some '\n' then (splitLinesGo [] cs).dropLast
    else splitLinesGo [] cs

/-- Joining accumulated chunk lines, `"\n".join(chunk)`. -/
def joinN (lines : List String) : String := String.intercalate "\n" lines

/-- Whether the first list is an initial segment of the second. -/
def listStarts : List Char → List Char → Bool
  | [], _ => true
  | _ :: _, [] => false
  | p :: ps, c :: cs => p = c && listStarts ps cs

/-- The last position at which `sep` occurs inside `cs`, if any. -/
def lastSplitIdx (sep cs : List Char) : Option Nat :=
  ((List.range cs.length).filter (fun i => listStarts sep (cs.drop i))).getLast?

/-- The characters of the literal header lead `diff --git a/`. -/
def headerLead : List Char :=
  ['d', 'i', 'f', 'f', ' ', '-', '-', 'g', 'i', 't', ' ', 'a', '/']

/-- `pattern.match(line)` for `^diff --git a/(.*) b/(.*)`: the line must start
with the literal `diff --git a/` and contain `" b/"` afterwards; the greedy
first group extends to the last occurrence of `" b/"`, the second group is
everything after it. Returns `(old-path, new-path)` on a match. -/
def matchHeader (line : String) : Option (String × String) :=
  let cs := line.toList
  if listStarts headerLead cs then
    let rest := cs.drop 13
    match lastSplitIdx [' ', 'b', '/'] rest with
    | some i => some (String.mk (rest.take i), String.mk (rest.drop (i + 3)))
    | none => none
  else none

/-- Python dict assignment `d[k] = v` on an association list: replaces the
value in place when the key is present (keeping its position), otherwise
appends the new binding. -/
def dictInsert : List (String × String) → String → String → List (String × String)
  | [], k, v => [(k, v)]
  | (k1, v1) :: d, k, v =>
      if k1 = k then (k, v) :: d else (k1, v1) :: dictInsert d k v

/-- Association-list lookup (Python `d[k]` / `k in d`). -/
def alookup : List (String × String) → String → Option String
  | [], _ => none
  | (k1, v1) :: d, k => if k1 = k then some v1 else alookup d k

/-- The keys of an association list in order. -/
def akeys (d : List (String × String)) : List String := d.map (·.1)

/-- Folding a list of bindings into a dict with `dictInsert`. -/
def insFold (d : List (String × String)) (ps : List (String × String)) :
    List (String × String) :=
  ps.foldl (fun d p => dictInsert d p.1 p.2) d

/-- The flush of `parse_diff`, guarded by `if current_file:` — a Python
truthiness test, so a chunk whose path captured as the empty string is
discarded, not stored. -/
def flushChunk (chunks : List (String × String)) (cur : String)
    (acc : List String) : List (String × String) :=
  if cur = "" then chunks else dictInsert chunks cur (joinN acc)

/-- The loop of `parse_diff` once a current file is open: non-header lines
accumulate into the current chunk, a header line flushes the current chunk
(under the `if current_file:` truthiness guard) into the dict and opens a
new one; the final chunk is flushed, under the same guard, at the end. -/
def parseDiffGo (chunks : List (String × String)) (cur : String)
    (acc : List String) : List String → List (String × String)
  | [] => flushChunk chunks cur acc
  | l :: ls =>
    match matchHeader l with
    | some m => parseDiffGo (flushChunk chunks cur acc) m.2 [l] ls
    | none => parseDiffGo chunks cur (acc ++ [l]) ls

/-- The loop of `parse_diff` before the first header: lines are discarded
(they are appended to a chunk that is reset on the first header and never
flushed otherwise). -/
def parse_diff_go0 : List String → List (String × String)
  | [] => []
  | l :: ls =>
    match matchHeader l with
    | some m => parseDiffGo [] m.2 [l] ls
    | none => parse_diff_go0 ls

/-- `parse_diff`: split a unified diff into per-file chunks keyed by the
`b/`-side path of each `diff --git` header. -/
def parse_diff (diff_text : String) : List (String × String) :=
  parse_diff_go0 (pySplitlines diff_text)

/-- The hunks of a diff, from an open hunk: each header starts a new hunk
(whose first line is the header itself); intervening lines belong to the
hunk of the most recent header. -/
def rawChunksGo (cur : String) (acc : List String) :
    List String → List (String × List String)
  | [] => [(cur, acc)]
  | l :: ls =>
    match matchHeader l with
    | some m => (cur, acc) :: rawChunksGo m.2 [l] ls
    | none => rawChunksGo cur (acc ++ [l]) ls

/-- The hunks of a diff: lines before the first header belong to no hunk. -/
def rawChunks : List String → List (String × List String)
  | [] => []
  | l :: ls =>
    match matchHeader l with
    | some m => rawChunksGo m.2 [l] ls
    | none => rawChunks ls

/-- The value attached to the last binding of a key in a binding list. -/
def lastVal (ps : List (String × String)) (k : String) : Option String :=
  ps.foldl (fun acc p => if p.1 = k then some p.2 else acc) none

/-- First-appearance deduplication of a key list (the key order of a Python
dict built by repeated assignment). -/
def firstDedup (ks : List String) : List String :=
  ks.foldl (fun acc k => if k ∈ acc then acc else acc ++ [k]) []

/-- `pathlib.Path(p).suffix`: the extension of the final path component,
present only when its last dot is neither the first nor the last character
of the component. -/
def pySuffix (p : String) : String :=
  let cs := (p.toList.reverse.takeWhile (fun c => c ≠ '/')).reverse
  match (cs.reverse.findIdx? (fun c => c = '.')) with
  | none => ""
  | some r =>
    let i := cs.length - 1 - r
    if 0 < i ∧ i < cs.length - 1 then String.mk (cs.drop i) else ""

/-- `SKIP_EXTENSIONS = {".md", ".txt", ".lock"}`. -/
def skipExts : List String := [".md", ".txt", ".lock"]

/-- `re.search(r"(\x7b.*\x7d)", text, re.DOTALL)`: the substring from the
first `{` to the last `}` of the whole text, when the latter comes after the
former. -/
def reSearchBrace (text : String) : Option String :=
  let cs := text.toList
  match cs.findIdx? (fun c => c = '{') with
  | none => none
  | some i =>
    match cs.reverse.findIdx? (fun c => c = '}') with
    | none => none
    | some r =>
      let j := cs.length - 1 - r
      if i < j then some (String.mk ((cs.drop i).take (j - i + 1))) else none

/-- `load_json_block`: parse the whole response as JSON; on failure parse the
first-to-last-brace substring; on failure (or when there is no such
substring) return the empty dict. `loads` stands for `json.loads`. -/
def load_json_block (loads : String → Except String JVal) (text : String) : JVal :=
  match loads text with
  | .ok v => v
  | .error _ =>
    match reSearchBrace text with
    | some sub =>
      match loads sub with
      | .ok v => v
      | .error _ => .obj []
    | none => .obj []

/-- The canonical finding record built by `normalize_issues`. Field values
that the source copies verbatim out of the payload stay `JVal`. -/
structure Finding where
  path : JVal
  line : Int
  suggestion : JVal
  severity : String
  spec_ref : JVal
  stage : String
  source : JVal
  deriving Repr

/-- The record built by `stage_three_validate` for a retained entry. -/
structure VFinding where
  path : JVal
  line : Int
  verdict : String
  severity : String
  suggestion : JVal
  justification : JVal
  spec_ref : JVal
  source : JVal
  deriving Repr

/-- A line-anchored review comment as built by `build_comments`. -/
structure Comment where
  path : JVal
  line : Int
  body : String
  side : String
  deriving Repr

/-- A reasoning-engine invocation, tagged by the stage that issues it and
carrying the data the stage renders into its prompt text. -/
inductive Prompt where
  | stage1 (path : String) (diff_file : String)
  | stage2 (diff_paths : List (String × String))
  | dedupe (issues : List Finding)
  | validation (issues : List Finding) (diff_paths : List (String × String))
  deriving Repr

/-- The final publication: a review with inline comments, or a summary-only
review when the comment list is empty. -/
inductive PublishAction where
  | summaryOnly (body : String)
  | withComments (body : String) (comments : List Comment)
  deriving Repr

/-- The outcome of one pipeline run: early return on an empty chunk map,
completion with a publish action and the list of issued reasoning-engine
calls, or an uncaught Python exception. -/
inductive RunOutcome where
  | noChunks
  | failed (err : String)
  | completed (publish : PublishAction) (prompts : List Prompt)
  deriving Repr

/-- `run_codex_json`: execute the prompt through `run_codex` (which raises on
a non-zero exit status — `oracle` returning `Except.error`) and extract a
JSON block from its output. The raised error is NOT caught here. -/
def run_codex_json (oracle : Prompt → Except String String)
    (loads : String → Except String JVal) (prompt : Prompt) :
    Except String JVal := do
  let output ← oracle prompt
  pure (load_json_block loads output)

/-- The issue-text alias chain of `normalize_issues`:
`entry.get("suggestion") or entry.get("description") or entry.get("message")
or entry.get("text") or ""`. -/
def nsuggJ (kvs : List (String × JVal)) : JVal :=
  pyOr (dget kvs "suggestion")
    (pyOr (dget kvs "description")
      (pyOr (dget kvs "message")
        (pyOr (dget kvs "text") (.str ""))))

/-- The path of a normalized entry: `entry.get("path") or default_path`. -/
def npathJ (kvs : List (String × JVal)) (default_path : String) : JVal :=
  pyOr (dget kvs "path") (.str default_path)

/-- The line coercion shared by `normalize_issues` and
`stage_three_validate`:
`int(entry.get("line") or entry.get("line_number") or 0)`, with
`TypeError`/`ValueError` caught and replaced by `0`. -/
def entryLine (kvs : List (String × JVal)) : Int :=
  (pyIntOfJ (pyOr (dget kvs "line")
    (pyOr (dget kvs "line_number") (.num 0)))).getD 0

/-- The severity of a normalized entry:
`(entry.get("severity") or entry.get("impact") or "").upper()`. -/
def nsevE (kvs : List (String × JVal)) : Except String String :=
  pyUpperJ (pyOr (dget kvs "severity") (pyOr (dget kvs "impact") (.str "")))

/-- `entry.get("spec_ref") or ""`. -/
def nspecJ (kvs : List (String × JVal)) : JVal :=
  pyOr (dget kvs "spec_ref") (.str "")

/-- `entry.get("source") or entry.get("stage") or stage`. -/
def nsourceJ (kvs : List (String × JVal)) (stage : String) : JVal :=
  pyOr (dget kvs "source") (pyOr (dget kvs "stage") (.str stage))

/-- The body of the `normalize_issues` loop for one entry: compute the issue
text and skip the entry when it is falsy, otherwise build a `Finding`.
Calling `.get` on a non-dict entry raises `AttributeError`; upper-casing a
truthy non-string severity raises too. -/
def normalizeEntry (entry : JVal) (default_path stage : String) :
    Except String (Option Finding) :=
  match entry with
  | .obj kvs =>
    if truthy (nsuggJ kvs) then do
      let sev ← nsevE kvs
      pure (some
        { path := npathJ kvs default_path
          line := entryLine kvs
          suggestion := nsuggJ kvs
          severity := sev
          spec_ref := nspecJ kvs
          stage := stage
          source := nsourceJ kvs stage })
    else pure none
  | _ => .error "AttributeError: get"

/-- The `for entry in entries` loop of `normalize_issues`. -/
def normalizeEntries (default_path stage : String) :
    List JVal → Except String (List Finding)
  | [] => pure []
  | e :: es => do
    let r ← normalizeEntry e default_path stage
    let rest ← normalizeEntries default_path stage es
    match r with
    | some f => pure (f :: rest)
    | none => pure rest

/-- `normalize_issues`: read the entry list from `issues` or `reviews`,
normalize each entry, and return the findings with the stripped summary.
A non-dict payload raises `AttributeError` at `payload.get`; a truthy
non-list entry collection raises when iterated. -/
def normalize_issues (payload : JVal) (default_path stage : String) :
    Except String (List Finding × String) :=
  match payload with
  | .obj kvs =>
    match pyOr (dget kvs "issues") (pyOr (dget kvs "reviews") (.arr [])) with
    | .arr l => do
      let issues ← normalizeEntries default_path stage l
      let summary ← pyStripJ (pyOr (dget kvs "summary") (.str ""))
      pure (issues, summary)
    | _ => .error "TypeError: not iterable"
  | _ => .error "AttributeError: get"

/-- The verdicts `stage_three_validate` retains. -/
def allowedVerdicts : List String := ["VALID", "SPEC-AMBIGUOUS", "PARTIAL"]

/-- `(entry.get("verdict") or "").upper()`. -/
def vverdictE (kvs : List (String × JVal)) : Except String String :=
  pyUpperJ (pyOr (dget kvs "verdict") (.str ""))

/-- `entry.get("path") or ""` in `stage_three_validate`. -/
def vpathJ (kvs : List (String × JVal)) : JVal :=
  pyOr (dget kvs "path") (.str "")

/-- `entry.get("severity", "").upper()` — note the `dict.get` default, not an
`or` chain, so a present falsy non-string still raises `AttributeError`. -/
def vsevE (kvs : List (String × JVal)) : Except String String :=
  pyUpperJ (dgetD kvs "severity" (.str ""))

/-- `entry.get("recommendation") or entry.get("suggestion") or
entry.get("description") or ""`. -/
def vsuggJ (kvs : List (String × JVal)) : JVal :=
  pyOr (dget kvs "recommendation")
    (pyOr (dget kvs "suggestion")
      (pyOr (dget kvs "description") (.str "")))

/-- `entry.get("justification") or entry.get("reason") or ""`. -/
def vjustJ (kvs : List (String × JVal)) : JVal :=
  pyOr (dget kvs "justification") (pyOr (dget kvs "reason") (.str ""))

/-- `entry.get("source") or entry.get("stage") or ""`. -/
def vsourceJ (kvs : List (String × JVal)) : JVal :=
  pyOr (dget kvs "source") (pyOr (dget kvs "stage") (.str ""))

/-- The body of the `stage_three_validate` loop for one entry: drop the
entry unless its upper-cased verdict is allowed, then drop it unless its
path is truthy and its coerced line is positive, then build the validated
record. -/
def validateEntry (entry : JVal) : Except String (Option VFinding) :=
  match entry with
  | .obj kvs => do
    let verdict ← vverdictE kvs
    if verdict ∈ allowedVerdicts then
      if truthy (vpathJ kvs) ∧ 0 < entryLine kvs then do
        let sev ← vsevE kvs
        pure (some
          { path := vpathJ kvs
            line := entryLine kvs
            verdict := verdict
            severity := sev
            suggestion := vsuggJ kvs
            justification := vjustJ kvs
            spec_ref := nspecJ kvs
            source := vsourceJ kvs })
      else pure none
    else pure none
  | _ => .error "AttributeError: get"

/-- The `for entry in validated_entries` loop of `stage_three_validate`. -/
def validateEntries : List JVal → Except String (List VFinding)
  | [] => pure []
  | e :: es => do
    let r ← validateEntry e
    let rest ← validateEntries es
    match r with
    | some f => pure (f :: rest)
    | none => pure rest

/-- `stage_one`: iterate the file chunks in order, skip configured
extensions without a call, and for each remaining file run one reasoning
call, normalize its payload, and collect findings, per-file summaries and
the issued prompts. An error in any call or in normalization propagates. -/
def stage_one (oracle : Prompt → Except String String)
    (loads : String → Except String JVal) :
    List (String × String) →
    Except String (List Finding × List String × List Prompt)
  | [] => pure ([], [], [])
  | (path, diff_file) :: rest =>
    if pySuffix path ∈ skipExts then stage_one oracle loads rest
    else do
      let data ← run_codex_json oracle loads (.stage1 path diff_file)
      let fs ← normalize_issues data path "stage1"
      let r ← stage_one oracle loads rest
      pure (fs.1 ++ r.1,
        (if fs.2 ≠ "" then [path ++ ": " ++ fs.2] else []) ++ r.2.1,
        .stage1 path diff_file :: r.2.2)

/-- `stage_two`: exactly one cross-file reasoning call over the whole chunk
set, normalized with an empty default path. -/
def stage_two (oracle : Prompt → Except String String)
    (loads : String → Except String JVal)
    (diff_paths : List (String × String)) :
    Except String (List Finding × List String × List Prompt) := do
  let data ← run_codex_json oracle loads (.stage2 diff_paths)
  let fs ← normalize_issues data "" "stage2"
  pure (fs.1, (if fs.2 ≠ "" then ["cross-file: " ++ fs.2] else []),
    [.stage2 diff_paths])

/-- `stage_dedupe`: return immediately with no call when there are no
findings; otherwise one reasoning call whose payload is normalized with
stage tag `dedupe`. -/
def stage_dedupe (oracle : Prompt → Except String String)
    (loads : String → Except String JVal) (issues : List Finding) :
    Except String (List Finding × List Prompt) :=
  if issues.isEmpty then pure ([], [])
  else do
    let data ← run_codex_json oracle loads (.dedupe issues)
    let fs ← normalize_issues data "" "dedupe"
    pure (fs.1, [.dedupe issues])

/-- `stage_three_validate`: return immediately with no call when there are
no combined findings; otherwise one reasoning call, whose `validated` (or
`issues`) entries are filtered into `VFinding`s. -/
def stage_three_validate (oracle : Prompt → Except String String)
    (loads : String → Except String JVal) (combined : List Finding)
    (diff_paths : List (String × String)) :
    Except String (List VFinding × List Prompt) :=
  if combined.isEmpty then pure ([], [])
  else do
    let data ← run_codex_json oracle loads (.validation combined diff_paths)
    match data with
    | .obj kvs =>
      match pyOr (dget kvs "validated") (pyOr (dget kvs "issues") (.arr [])) with
      | .arr l => do
        let vs ← validateEntries l
        pure (vs, [.validation combined diff_paths])
      | _ => .error "TypeError: not iterable"
    | _ => .error "AttributeError: get"

/-- The comment header line,
`f"🤖 **Codex Reviewer ({verdict})**" + (f" [{severity}]" if severity else "")`. -/
def commentHeader (vf : VFinding) : String :=
  "🤖 **Codex Reviewer (" ++ vf.verdict ++ ")**" ++
    (if vf.severity ≠ "" then " [" ++ vf.severity ++ "]" else "")

/-- `"\n".join` needs every element to be a `str`; the suggestion is the only
body line appended without f-string conversion, so a truthy non-string
suggestion raises `TypeError` at the join. -/
def asStrE : JVal → Except String String
  | .str s => .ok s
  | _ => .error "TypeError: sequence item"

/-- `build_comments`: one comment per validated finding whose path and line
are truthy, with side `RIGHT` and a body joined from the header and the
present optional fields in fixed order. -/
def build_comments : List VFinding → Except String (List Comment)
  | [] => pure []
  | vf :: rest =>
    if truthy vf.path ∧ vf.line ≠ 0 then do
      let suggLines ←
        if truthy vf.suggestion then do
          let s ← asStrE vf.suggestion
          pure [s]
        else pure []
      let body := String.intercalate "\n"
        ([commentHeader vf] ++ suggLines ++
          (if truthy vf.justification then ["Reason: " ++ pyToStr vf.justification] else []) ++
          (if truthy vf.spec_ref then ["Spec: " ++ pyToStr vf.spec_ref] else []) ++
          (if truthy vf.source then ["Source stage: " ++ pyToStr vf.source] else []))
      let rest ← build_comments rest
      pure ({ path := vf.path, line := vf.line, body := body, side := "RIGHT" } :: rest)
    else build_comments rest

/-- `write_diff_chunks` as seen by downstream stages: each chunk path maps
to `diff_tmp/<path>` relative to the repository root (the file writes
themselves are an external side effect). -/
def diffPathsOf (chunks : List (String × String)) : List (String × String) :=
  chunks.map (fun c => (c.1, "diff_tmp/" ++ c.1))

/-- The publish step of `main`: a review with inline comments when there are
any, otherwise a summary-only review. -/
def publishOf (comments : List Comment) (summaries : List String) : PublishAction :=
  let body := String.intercalate "\n" (summaries.map (fun s => "- " ++ s))
  if comments.isEmpty then .summaryOnly body else .withComments body comments

/-- The pipeline of `main` after the diff text is read: split, early return
on an empty chunk map, then stage 1, stage 2, dedupe, validation, comment
building and the publish decision; any uncaught Python exception surfaces
as `RunOutcome.failed`. -/
def runPipeline (oracle : Prompt → Except String String)
    (loads : String → Except String JVal) (diff_text : String) : RunOutcome :=
  let chunks := parse_diff diff_text
  if chunks.isEmpty then .noChunks
  else
    let dps := diffPathsOf chunks
    let run : Except String (PublishAction × List Prompt) := do
      let r1 ← stage_one oracle loads dps
      let r2 ← stage_two oracle loads dps
      let rd ← stage_dedupe oracle loads (r1.1 ++ r2.1)
      let rv ← stage_three_validate oracle loads rd.1 dps
      let comments ← build_comments rv.1
      let summaries := r1.2.1 ++ r2.2.1 ++
        [if rv.1.isEmpty then "No validated issues found."
         else "Validated findings: " ++ toString rv.1.length]
      pure (publishOf comments summaries, r1.2.2 ++ r2.2.2 ++ rd.2 ++ rv.2)
    match run with
    | .ok r => .completed r.1 r.2
    | .error e => .failed e

/-- A `json.loads` instance that fails on every input (as on plain prose). -/
def loadsFail : String → Except String JVal :=
  fun _ => .error "Expecting value: line 1 column 1 (char 0)"

/-- A `json.loads` instance that parses the single document `[1, 2]` — a
top-level list, not an object. -/
def loadsList : String → Except String JVal :=
  fun s => if s = "[1, 2]" then .ok (.arr [.num 1, .num 2]) else .error "Expecting value"

/-- A reasoning engine that always exits 0 but answers free prose with no
JSON in it. -/
def oracleProse : Prompt → Except String String :=
  fun _ => .ok "thinking aloud with no structured output"

/-- A reasoning engine whose process exits non-zero, making `run_codex`
raise `RuntimeError`. -/
def oracleFail : Prompt → Except String String :=
  fun _ => .error "codex exited with 1: boom"

/-- The validation entry used to instantiate the C2 theorem. -/
def kvsC2 : List (String × JVal) :=
  [("verdict", .str "Valid"), ("path", .str "a.py"), ("line", .num 12)]

/-- A stage-1 payload entry with a negative numeric `line`. -/
def kvsC5 : List (String × JVal) :=
  [("suggestion", .str "use checked add"), ("line", .num (-5))]

/-- A stage-1 payload holding `kvsC5` as its only issue. -/
def payloadC5 : JVal := .obj [("issues", .arr [.obj kvsC5])]

/-- The finding `normalize_issues` produces from `kvsC5`. -/
def findingC5 : Finding :=
  { path := .str "f.py", line := -5, suggestion := .str "use checked add",
    severity := "", spec_ref := .str "", stage := "stage1",
    source := .str "stage1" }

/-- A payload entry with an empty `suggestion` but a non-empty
`description`. -/
def kvsC6 : List (String × JVal) :=
  [("suggestion", .str ""), ("description", .str "tighten the bound")]

/-- The first non-empty string of a list, as an option. -/
def firstNonEmptyStr (l : List String) : Option String :=
  l.find? (fun s => s != "")

/-- Boolean string comparison is decidable propositional equality. -/
theorem string_beq_decide (a b : String) : (a == b) = decide (a = b) := rfl

/-- Reduction of a monadic bind on a successful `Except`. -/
theorem ebind_ok {α β : Type} (a : α) (f : α → Except String β) :
    (Except.ok a : Except String α) >>= f = f a := rfl

/-- Reduction of a monadic bind on a failed `Except`. -/
theorem ebind_err {α β : Type} (e : String) (f : α → Except String β) :
    (Except.error e : Except String α) >>= f = .error e := rfl

/-- Reduction of a functorial map on a successful `Except`. -/
theorem emap_ok {α β : Type} (g : α → β) (a : α) :
    g <$> (Except.ok a : Except String α) = .ok (g a) := rfl

/-- Reduction of a functorial map on a failed `Except`. -/
theorem emap_err {α β : Type} (g : α → β) (e : String) :
    g <$> (Except.error e : Except String α) = .error e := rfl

/-- `pure` on `Except` is `Except.ok`. -/
theorem epure_eq {α : Type} (a : α) : (pure a : Except String α) = .ok a := rfl

/-- C3: `load_json_block` is total — for every parser behaviour and every
input string it returns a value, by trying, in order, (a) a whole-text
parse, (b) a parse of the substring spanning the outermost braces, and (c)
falling back to the empty dict. -/
theorem c3_load_json_block_total (loads : String → Except String JVal)
    (text : String) :
    (∃ v, loads text = .ok v ∧ load_json_block loads text = v) ∨
    (∃ e sub v, loads text = .error e ∧ reSearchBrace text = some sub ∧
      loads sub = .ok v ∧ load_json_block loads text = v) ∨
    load_json_block loads text = .obj [] := by
  cases h : loads text with
  | ok v => exact Or.inl ⟨v, rfl, by simp [load_json_block, h]⟩
  | error e =>
    cases hb : reSearchBrace text with
    | none => exact Or.inr (Or.inr (by simp [load_json_block, h, hb]))
    | some sub =>
      cases hs : loads sub with
      | ok v =>
        exact Or.inr (Or.inl ⟨e, sub, v, rfl, rfl, hs, by simp [load_json_block, h, hb, hs]⟩)
      | error e2 => exact Or.inr (Or.inr (by simp [load_json_block, h, hb, hs]))

/-- C10: when the whole text parses, `load_json_block` returns exactly the
parsed value — also when that value is not an object — the caller
`run_codex_json` hands it on unchanged, and the empty-dict fallback is used
only when the whole-text parse and the brace-substring parse both fail. -/
theorem c10_whole_text_parse (loads : String → Except String JVal)
    (text : String) :
    (∀ v, loads text = .ok v → load_json_block loads text = v) ∧
    (∀ (oracle : Prompt → Except String String) (pr : Prompt) (out : String) (v : JVal),
      oracle pr = .ok out → loads out = .ok v →
      run_codex_json oracle loads pr = .ok v) ∧
    (∀ e, loads text = .error e → reSearchBrace text = none →
      load_json_block loads text = .obj []) ∧
    (∀ e sub e2, loads text = .error e → reSearchBrace text = some sub →
      loads sub = .error e2 → load_json_block loads text = .obj []) := by
  refine ⟨fun v h => by simp [load_json_block, h],
    fun oracle pr out v h1 h2 => ?_,
    fun e h hb => by simp [load_json_block, h, hb],
    fun e sub e2 h hb hs => by simp [load_json_block, h, hb, hs]⟩
  simp [run_codex_json, h1, load_json_block, h2, Except.bind]

/-- Witness for C10 at a concrete non-object document: the parsed top-level
list is returned as is. -/
theorem c10_whole_text_parse_witness :
    load_json_block loadsList "[1, 2]" = .arr [.num 1, .num 2] :=
  (c10_whole_text_parse loadsList "[1, 2]").1 _ rfl

/-- C2: for an entry whose verdict and severity fields are well-typed (so
`.upper()` does not raise), a `VFinding` is produced if and only if the
upper-cased verdict is one of `VALID`, `SPEC-AMBIGUOUS`, `PARTIAL`, the
path is truthy (non-empty) and the coerced line is strictly positive;
entries failing any condition are dropped. -/
theorem c2_validated_iff (kvs : List (String × JVal)) (v s : String)
    (hv : vverdictE kvs = .ok v) (hs : vsevE kvs = .ok s) :
    ∃ r, validateEntry (.obj kvs) = .ok r ∧
      (r.isSome ↔ (v ∈ allowedVerdicts ∧ truthy (vpathJ kvs) = true ∧
        0 < entryLine kvs)) := by
  by_cases hmem : v ∈ allowedVerdicts
  · by_cases hpl : truthy (vpathJ kvs) = true ∧ 0 < entryLine kvs
    · refine ⟨some
        { path := vpathJ kvs, line := entryLine kvs, verdict := v,
          severity := s, suggestion := vsuggJ kvs,
          justification := vjustJ kvs, spec_ref := nspecJ kvs,
          source := vsourceJ kvs }, ?_, by simp [hmem, hpl.1, hpl.2]⟩
      simp [validateEntry, hv, hs, ebind_ok, emap_ok, hmem, hpl.1, hpl.2]
    · refine ⟨none, ?_, by simp [hpl]⟩
      simp [validateEntry, hv, hs, ebind_ok, emap_ok, epure_eq, hmem, hpl]
  · refine ⟨none, ?_, by simp [hmem]⟩
    simp [validateEntry, hv, hs, ebind_ok, emap_ok, epure_eq, hmem]

/-- Witness for C2 at a concrete entry with verdict `Valid`, a non-empty
path and line 12: a `VFinding` is produced. -/
theorem c2_validated_iff_witness :
    ∃ r, validateEntry (.obj kvsC2) = .ok r ∧
      (r.isSome ↔ ("VALID" ∈ allowedVerdicts ∧ truthy (vpathJ kvsC2) = true ∧
        0 < entryLine kvsC2)) :=
  c2_validated_iff kvsC2 "VALID" "" (by rfl) (by rfl)

/-- Counterexample for C5: the code does not guarantee a non-negative line —
a payload entry carrying `line = -5` yields a `Finding` whose `line` field
is `-5`, which `normalize_issues` passes through. -/
theorem c5_counter_negative_line :
    normalize_issues payloadC5 "f.py" "stage1" = .ok ([findingC5], "") ∧
      findingC5.line < 0 :=
  ⟨by rfl, by decide⟩

/-- C5 as amended: the line field is read from `line` then `line_number`
under Python truthiness; a non-numeric or absent value coerces to `0`
without raising, `0` is preserved, and a non-zero numeric value — negative
ones included — passes through unchanged, so the field is an integer but
not necessarily non-negative. -/
theorem c5_line_coercion (kvs : List (String × JVal)) (d st : String)
    (r : Finding) (h : normalizeEntry (.obj kvs) d st = .ok (some r)) :
    r.line = entryLine kvs ∧
    (pyIntOfJ (pyOr (dget kvs "line") (pyOr (dget kvs "line_number") (.num 0))) = none →
      r.line = 0) ∧
    (dget kvs "line" = .null → dget kvs "line_number" = .null → r.line = 0) ∧
    (∀ n : Int, dget kvs "line" = .num n → n ≠ 0 → r.line = n) := by
  have hline : r.line = entryLine kvs := by
    by_cases hsugg : truthy (nsuggJ kvs) = true
    · cases hsev : nsevE kvs with
      | ok sv =>
        simp only [normalizeEntry, hsugg, if_true, hsev, Except.bind,
          Except.pure, pure] at h
        have h4 := Option.some.inj (Except.ok.inj h)
        subst h4
        rfl
      | error e =>
        simp only [normalizeEntry, hsugg, if_true, hsev, Except.bind] at h
        exact Except.noConfusion h
    · simp [normalizeEntry, hsugg, Except.pure, pure] at h
  refine ⟨hline, fun hnone => ?_, fun ha hb => ?_, fun n hn hne => ?_⟩
  · rw [hline]; simp [entryLine, hnone]
  · rw [hline]; simp [entryLine, ha, hb, pyOr, truthy, pyIntOfJ]
  · rw [hline]; simp [entryLine, hn, pyOr, truthy, pyIntOfJ, hne]

/-- A value that is absent-or-string is `None` or a string. -/
theorem strOrAbsent_cases (v : JVal) (h : strOrAbsent v = true) :
    v = .null ∨ ∃ s, v = .str s := by
  cases v <;> simp_all [strOrAbsent]

/-- On an absent-or-string value, `pyOr` keeps the string when it is
non-empty and falls through otherwise. -/
theorem pyOr_strOrAbsent (a b : JVal) (h : strOrAbsent a = true) :
    pyOr a b = if strOfJ a = "" then b else .str (strOfJ a) := by
  rcases strOrAbsent_cases a h with rfl | ⟨s, rfl⟩
  · simp [pyOr, truthy, strOfJ]
  · by_cases hs : s = "" <;> simp [pyOr, truthy, strOfJ, hs]

/-- On absent-or-string alias fields, the suggestion chain of
`normalize_issues` selects the first non-empty alias in priority order and
falls back to the empty string. -/
theorem nsuggJ_eq_first (kvs : List (String × JVal))
    (h1 : strOrAbsent (dget kvs "suggestion") = true)
    (h2 : strOrAbsent (dget kvs "description") = true)
    (h3 : strOrAbsent (dget kvs "message") = true)
    (h4 : strOrAbsent (dget kvs "text") = true) :
    nsuggJ kvs =
      (match firstNonEmptyStr [strOfJ (dget kvs "suggestion"),
          strOfJ (dget kvs "description"), strOfJ (dget kvs "message"),
          strOfJ (dget kvs "text")] with
       | some s => JVal.str s
       | none => JVal.str "") := by
  rw [nsuggJ, pyOr_strOrAbsent _ _ h4, pyOr_strOrAbsent _ _ h3,
    pyOr_strOrAbsent _ _ h2, pyOr_strOrAbsent _ _ h1]
  by_cases e1 : strOfJ (dget kvs "suggestion") = "" <;>
    by_cases e2 : strOfJ (dget kvs "description") = "" <;>
      by_cases e3 : strOfJ (dget kvs "message") = "" <;>
        by_cases e4 : strOfJ (dget kvs "text") = "" <;>
          simp [firstNonEmptyStr, List.find?, bne, string_beq_decide,
            e1, e2, e3, e4]

/-- Witness for C5 as amended: on the concrete entry carrying `line = -5`
the line formula evaluates and its coercion facts hold. -/
theorem c5_line_coercion_witness :
    findingC5.line = entryLine kvsC5 ∧
    (pyIntOfJ (pyOr (dget kvsC5 "line") (pyOr (dget kvsC5 "line_number") (.num 0))) = none →
      findingC5.line = 0) ∧
    (dget kvsC5 "line" = .null → dget kvsC5 "line_number" = .null →
      findingC5.line = 0) ∧
    (∀ n : Int, dget kvsC5 "line" = .num n → n ≠ 0 → findingC5.line = n) :=
  c5_line_coercion kvsC5 "f.py" "stage1" findingC5 (by rfl)

/-- C6: the issue text of a normalized entry is the first non-empty field
among `suggestion`, `description`, `message`, `text` in that priority
order, and an entry in which all four are absent or empty is dropped from
the normalized output regardless of its other fields. -/
theorem c6_suggestion_priority (kvs : List (String × JVal)) (d st : String)
    (h1 : strOrAbsent (dget kvs "suggestion") = true)
    (h2 : strOrAbsent (dget kvs "description") = true)
    (h3 : strOrAbsent (dget kvs "message") = true)
    (h4 : strOrAbsent (dget kvs "text") = true) :
    (firstNonEmptyStr [strOfJ (dget kvs "suggestion"),
        strOfJ (dget kvs "description"), strOfJ (dget kvs "message"),
        strOfJ (dget kvs "text")] = none →
      normalizeEntry (.obj kvs) d st = .ok none) ∧
    (∀ s sev, firstNonEmptyStr [strOfJ (dget kvs "suggestion"),
        strOfJ (dget kvs "description"), strOfJ (dget kvs "message"),
        strOfJ (dget kvs "text")] = some s → nsevE kvs = .ok sev →
      ∃ r, normalizeEntry (.obj kvs) d st = .ok (some r) ∧
        r.suggestion = .str s) := by
  have key := nsuggJ_eq_first kvs h1 h2 h3 h4
  constructor
  · intro hnone
    rw [hnone] at key
    simp [normalizeEntry, key, truthy, epure_eq]
  · intro s sev hsome hsev
    rw [hsome] at key
    have hne : s ≠ "" := by
      have := List.find?_some hsome
      simpa [bne] using this
    refine ⟨⟨npathJ kvs d, entryLine kvs, nsuggJ kvs, sev, nspecJ kvs,
      st, nsourceJ kvs st⟩, ?_, by rw [key]⟩
    simp [normalizeEntry, key, truthy, hne, hsev, ebind_ok, epure_eq]

/-- Witness for C6: an entry with empty `suggestion` and non-empty
`description` is normalized with the description as its issue text. -/
theorem c6_suggestion_priority_witness :
    ∃ r, normalizeEntry (.obj kvsC6) "p" "stage1" = .ok (some r) ∧
      r.suggestion = .str "tighten the bound" :=
  (c6_suggestion_priority kvsC6 "p" "stage1" rfl rfl rfl rfl).2
    "tighten the bound" "" (by rfl) (by rfl)

/-- The comment `build_comments` assembles for one validated finding: side
`RIGHT`, the finding's path and line, and a body joined from the
verdict+severity header and the present optional fields in fixed order. -/
def mkComment (vf : VFinding) : Comment :=
  { path := vf.path, line := vf.line,
    body := String.intercalate "\n"
      ([commentHeader vf] ++
        (if truthy vf.suggestion then [strOfJ vf.suggestion] else []) ++
        (if truthy vf.justification then ["Reason: " ++ pyToStr vf.justification] else []) ++
        (if truthy vf.spec_ref then ["Spec: " ++ pyToStr vf.spec_ref] else []) ++
        (if truthy vf.source then ["Source stage: " ++ pyToStr vf.source] else [])),
    side := "RIGHT" }

/-- C9: on validated findings with truthy path, positive line and a
string-typed suggestion, `build_comments` drops nothing and produces
exactly one comment per finding, equal to `mkComment` of it: side `RIGHT`,
same path and line, body assembled from the present fields in fixed
order. -/
theorem c9_one_comment_per_finding (vfs : List VFinding)
    (h : ∀ vf ∈ vfs, truthy vf.path = true ∧ 0 < vf.line ∧
      strLike vf.suggestion = true) :
    build_comments vfs = .ok (vfs.map mkComment) := by
  induction vfs with
  | nil => rfl
  | cons vf rest ih =>
    obtain ⟨hp, hl, hs⟩ := h vf (List.mem_cons_self _ _)
    have hrest := ih (fun v hv => h v (List.mem_cons_of_mem _ hv))
    have hline : vf.line ≠ 0 := by omega
    by_cases ht : truthy vf.suggestion = true
    · have hstr : ∃ s, vf.suggestion = .str s := by
        cases hv : vf.suggestion <;> simp_all [strLike, truthy]
      obtain ⟨s, hsugg⟩ := hstr
      have hsne : s ≠ "" := by
        rw [hsugg] at ht
        simpa [truthy] using ht
      have ht2 : truthy (JVal.str s) = true := by simpa [truthy] using hsne
      simp [build_comments, hp, hline, ht2, hsugg, asStrE, ebind_ok,
        epure_eq, hrest, mkComment, strOfJ]
    · simp [build_comments, hp, hline, ht, ebind_ok, epure_eq, hrest,
        mkComment]

/-- The validated finding used to instantiate the C9 theorem. -/
def vfC9 : VFinding :=
  { path := .str "a.py", line := 12, verdict := "VALID", severity := "HIGH",
    suggestion := .str "clamp the value", justification := .str "overflow per spec",
    spec_ref := .str "EIP-7825", source := .str "stage1" }

/-- Witness for C9 at a concrete validated finding. -/
theorem c9_one_comment_per_finding_witness :
    build_comments [vfC9] = .ok ([vfC9].map mkComment) :=
  c9_one_comment_per_finding [vfC9] (by decide)

/-- Counterexample for C1: a reasoning-engine call that fails (non-zero
exit status, `run_codex` raising `RuntimeError`) is NOT degraded to an
empty finding set — the exception is uncaught and the whole run fails. -/
theorem c1_counter_call_failure_propagates :
    runPipeline oracleFail loadsFail "diff --git a/a.py b/a.py\n+x" =
      .failed "codex exited with 1: boom" := by rfl

/-- C1 as amended: when a reasoning-engine call succeeds but its output is
unparsable (the extracted block is the empty dict), the stage yields an
empty finding/validation set for that unit and continues; but when the call
itself fails, the raised error propagates out of every stage — per-unit
degradation holds only for unparsable text, not for call failure. -/
theorem c1_unparsable_degrades_failure_propagates :
    (∀ (oracle : Prompt → Except String String)
        (loads : String → Except String JVal) (path df : String)
        (rest : List (String × String)) (out : String),
      pySuffix path ∉ skipExts →
      oracle (.stage1 path df) = .ok out →
      load_json_block loads out = .obj [] →
      stage_one oracle loads ((path, df) :: rest) =
        (stage_one oracle loads rest).map
          (fun r => (r.1, r.2.1, Prompt.stage1 path df :: r.2.2))) ∧
    (∀ (oracle : Prompt → Except String String)
        (loads : String → Except String JVal) (path df : String)
        (rest : List (String × String)) (e : String),
      pySuffix path ∉ skipExts →
      oracle (.stage1 path df) = .error e →
      stage_one oracle loads ((path, df) :: rest) = .error e) ∧
    (∀ (oracle : Prompt → Except String String)
        (loads : String → Except String JVal)
        (dps : List (String × String)) (out : String),
      oracle (.stage2 dps) = .ok out →
      load_json_block loads out = .obj [] →
      stage_two oracle loads dps = .ok ([], [], [.stage2 dps])) ∧
    (∀ (oracle : Prompt → Except String String)
        (loads : String → Except String JVal)
        (dps : List (String × String)) (e : String),
      oracle (.stage2 dps) = .error e →
      stage_two oracle loads dps = .error e) ∧
    (∀ (oracle : Prompt → Except String String)
        (loads : String → Except String JVal)
        (issues : List Finding) (out : String),
      issues ≠ [] →
      oracle (.dedupe issues) = .ok out →
      load_json_block loads out = .obj [] →
      stage_dedupe oracle loads issues = .ok ([], [.dedupe issues])) ∧
    (∀ (oracle : Prompt → Except String String)
        (loads : String → Except String JVal)
        (issues : List Finding) (e : String),
      issues ≠ [] →
      oracle (.dedupe issues) = .error e →
      stage_dedupe oracle loads issues = .error e) ∧
    (∀ (oracle : Prompt → Except String String)
        (loads : String → Except String JVal)
        (issues : List Finding) (dps : List (String × String)) (out : String),
      issues ≠ [] →
      oracle (.validation issues dps) = .ok out →
      load_json_block loads out = .obj [] →
      stage_three_validate oracle loads issues dps =
        .ok ([], [.validation issues dps])) ∧
    (∀ (oracle : Prompt → Except String String)
        (loads : String → Except String JVal)
        (issues : List Finding) (dps : List (String × String)) (e : String),
      issues ≠ [] →
      oracle (.validation issues dps) = .error e →
      stage_three_validate oracle loads issues dps = .error e) := by
  have hnorm : ∀ d st : String, normalize_issues (.obj []) d st = .ok ([], "") := by
    intro d st; rfl
  refine ⟨?_, ?_, ?_, ?_, ?_, ?_, ?_, ?_⟩
  · intro oracle loads path df rest out hskip hok hjson
    cases hrest : stage_one oracle loads rest with
    | ok r =>
      simp [stage_one, hskip, run_codex_json, hok, hjson, hnorm, ebind_ok,
        epure_eq, hrest, Except.map]
    | error e =>
      simp [stage_one, hskip, run_codex_json, hok, hjson, hnorm, ebind_ok,
        ebind_err, epure_eq, hrest, Except.map]
  · intro oracle loads path df rest e hskip herr
    simp [stage_one, hskip, run_codex_json, herr, ebind_err, ebind_ok]
  · intro oracle loads dps out hok hjson
    simp [stage_two, run_codex_json, hok, hjson, hnorm, ebind_ok, epure_eq]
  · intro oracle loads dps e herr
    simp [stage_two, run_codex_json, herr, ebind_err, ebind_ok]
  · intro oracle loads issues out hne hok hjson
    simp [stage_dedupe, List.isEmpty_iff, hne, run_codex_json, hok,
      hjson, hnorm, ebind_ok, epure_eq]
  · intro oracle loads issues e hne herr
    simp [stage_dedupe, List.isEmpty_iff, hne, run_codex_json, herr,
      ebind_err, ebind_ok]
  · intro oracle loads issues dps out hne hok hjson
    simp [stage_three_validate, List.isEmpty_iff, hne,
      run_codex_json, hok, hjson, ebind_ok, epure_eq, validateEntries,
      dget, pyOr, truthy]
  · intro oracle loads issues dps e hne herr
    simp [stage_three_validate, List.isEmpty_iff, hne,
      run_codex_json, herr, ebind_err, ebind_ok]

/-- Witness for C1's amended theorem: a succeeding call answering prose with
no JSON degrades the file's unit to zero findings while the stage
continues. -/
theorem c1_unparsable_degrades_witness :
    stage_one oracleProse loadsFail [("a.py", "diff_tmp/a.py")] =
      (stage_one oracleProse loadsFail []).map
        (fun r => (r.1, r.2.1, Prompt.stage1 "a.py" "diff_tmp/a.py" :: r.2.2)) :=
  c1_unparsable_degrades_failure_propagates.1 oracleProse loadsFail
    "a.py" "diff_tmp/a.py" [] "thinking aloud with no structured output"
    (by decide) (by rfl) (by rfl)

/-- C7: in a run whose stage 1 and stage 2 both complete with zero
findings, the dedupe and validation stages return empty immediately and
issue zero reasoning-engine calls, and the run completes with a
summary-only publication (an empty comment list): the only prompts of the
whole run are the stage-1 and stage-2 ones. -/
theorem c7_zero_findings_short_circuit
    (oracle : Prompt → Except String String)
    (loads : String → Except String JVal) (text : String)
    (s1 s2 : List String) (p1 p2 : List Prompt)
    (hne : parse_diff text ≠ [])
    (h1 : stage_one oracle loads (diffPathsOf (parse_diff text)) = .ok ([], s1, p1))
    (h2 : stage_two oracle loads (diffPathsOf (parse_diff text)) = .ok ([], s2, p2)) :
    stage_dedupe oracle loads [] = .ok ([], []) ∧
    stage_three_validate oracle loads [] (diffPathsOf (parse_diff text)) = .ok ([], []) ∧
    runPipeline oracle loads text = .completed
      (.summaryOnly (String.intercalate "\n"
        ((s1 ++ s2 ++ ["No validated issues found."]).map (fun s => "- " ++ s))))
      (p1 ++ p2) := by
  refine ⟨rfl, rfl, ?_⟩
  have hfalse : (parse_diff text).isEmpty = false := by
    simp [List.isEmpty_iff, hne]
  simp [runPipeline, hfalse, h1, h2, ebind_ok, epure_eq, stage_dedupe,
    stage_three_validate, build_comments, publishOf]

/-- Witness for C7: a one-file diff, an engine that always answers prose
and a parser that rejects it — zero findings everywhere, a summary-only
publish, and only the stage-1 and stage-2 prompts issued. -/
theorem c7_zero_findings_short_circuit_witness :
    stage_dedupe oracleProse loadsFail [] = .ok ([], []) ∧
    stage_three_validate oracleProse loadsFail []
      (diffPathsOf (parse_diff "diff --git a/a.py b/a.py\n+pass")) = .ok ([], []) ∧
    runPipeline oracleProse loadsFail "diff --git a/a.py b/a.py\n+pass" =
      .completed (.summaryOnly "- No validated issues found.")
        ([.stage1 "a.py" "diff_tmp/a.py"] ++
          [.stage2 [("a.py", "diff_tmp/a.py")]]) :=
  c7_zero_findings_short_circuit oracleProse loadsFail
    "diff --git a/a.py b/a.py\n+pass" [] [] [.stage1 "a.py" "diff_tmp/a.py"]
    [.stage2 [("a.py", "diff_tmp/a.py")]] (by decide) (by rfl) (by rfl)

/-- C8: a diff text none of whose lines matches the `diff --git` header
pattern yields an empty chunk mapping without an error, the orchestrator
treats that as nothing to review and returns early (no failure, no calls),
and any lines before the first header are discarded and appear in no
chunk. -/
theorem c8_no_header_empty_mapping :
    (∀ text : String, (∀ l ∈ pySplitlines text, matchHeader l = none) →
      parse_diff text = [] ∧
      ∀ (oracle : Prompt → Except String String)
        (loads : String → Except String JVal),
        runPipeline oracle loads text = .noChunks) ∧
    (∀ pre ls : List String, (∀ l ∈ pre, matchHeader l = none) →
      parse_diff_go0 (pre ++ ls) = parse_diff_go0 ls) := by
  have hpre : ∀ pre ls : List String, (∀ l ∈ pre, matchHeader l = none) →
      parse_diff_go0 (pre ++ ls) = parse_diff_go0 ls := by
    intro pre
    induction pre with
    | nil => intro ls _; rfl
    | cons l pre ih =>
      intro ls h
      have hl := h l (List.mem_cons_self _ _)
      have hrest := ih ls (fun x hx => h x (List.mem_cons_of_mem _ hx))
      simp [parse_diff_go0, hl, hrest]
  refine ⟨?_, hpre⟩
  intro text h
  have hempty : parse_diff text = [] := by
    have := hpre (pySplitlines text) [] h
    simpa [parse_diff, parse_diff_go0] using this
  exact ⟨hempty, fun oracle loads => by simp [runPipeline, hempty]⟩

/-- Witness for C8: prose with no diff header parses to an empty mapping
and the pipeline returns `noChunks` without consulting the engine. -/
theorem c8_no_header_empty_mapping_witness :
    parse_diff "hello\nworld" = [] ∧
    runPipeline oracleFail loadsFail "hello\nworld" = .noChunks :=
  ⟨(c8_no_header_empty_mapping.1 "hello\nworld" (by decide)).1,
    (c8_no_header_empty_mapping.1 "hello\nworld" (by decide)).2 oracleFail loadsFail⟩

/-- Lookup after a Python dict assignment: the new value under the assigned
key, the old dict elsewhere. -/
theorem alookup_dictInsert (d : List (String × String)) (k v k2 : String) :
    alookup (dictInsert d k v) k2 = if k2 = k then some v else alookup d k2 := by
  induction d with
  | nil =>
    by_cases h : k2 = k
    · simp [dictInsert, alookup, h]
    · have h2 : ¬ k = k2 := fun hh => h hh.symm
      simp [dictInsert, alookup, h, h2]
  | cons kv d ih =>
    by_cases h1 : kv.1 = k
    · by_cases h2 : k2 = k
      · simp [dictInsert, alookup, h1, h2]
      · have h3 : ¬ k = k2 := fun hh => h2 hh.symm
        have h4 : ¬ kv.1 = k2 := h1 ▸ h3
        simp [dictInsert, alookup, h1, h2, h3, h4]
    · by_cases h2 : kv.1 = k2
      · have h3 : ¬ k2 = k := fun hh => h1 (h2.trans hh)
        simp [dictInsert, alookup, h1, h2, h3]
      · simp [dictInsert, alookup, h1, h2, ih]

/-- Keys after a Python dict assignment: unchanged for an update, the new
key appended for an insert. -/
theorem akeys_dictInsert (d : List (String × String)) (k v : String) :
    akeys (dictInsert d k v) =
      if k ∈ akeys d then akeys d else akeys d ++ [k] := by
  induction d with
  | nil => simp [dictInsert, akeys]
  | cons kv d ih =>
    by_cases h1 : kv.1 = k
    · simp [dictInsert, akeys, h1]
    · have hne : ¬ k = kv.1 := fun hh => h1 hh.symm
      have step : dictInsert (kv :: d) k v = kv :: dictInsert d k v := by
        simp [dictInsert, h1]
      rw [step]
      have ha : akeys (kv :: dictInsert d k v) = kv.1 :: akeys (dictInsert d k v) := rfl
      have hb : akeys (kv :: d) = kv.1 :: akeys d := rfl
      rw [ha, hb, ih]
      by_cases h2 : k ∈ akeys d
      · simp [h2, List.mem_cons, hne]
      · simp [h2, List.mem_cons, hne]

/-- A Python dict assignment preserves distinctness of keys. -/
theorem nodup_akeys_dictInsert (d : List (String × String)) (k v : String)
    (h : (akeys d).Nodup) : (akeys (dictInsert d k v)).Nodup := by
  rw [akeys_dictInsert]
  by_cases hm : k ∈ akeys d
  · simpa [hm] using h
  · simp [hm, List.nodup_append, h]

/-- Folding dict assignments preserves distinctness of keys. -/
theorem nodup_insFold (ps : List (String × String))
    (d : List (String × String)) (h : (akeys d).Nodup) :
    (akeys (insFold d ps)).Nodup := by
  induction ps generalizing d with
  | nil => exact h
  | cons p ps ih => exact ih _ (nodup_akeys_dictInsert _ _ _ h)

/-- The keys of a fold of dict assignments: the starting keys extended by
each new key at its first appearance. -/
theorem akeys_insFold (ps : List (String × String))
    (d : List (String × String)) :
    akeys (insFold d ps) =
      (ps.map (·.1)).foldl
        (fun ks k => if k ∈ ks then ks else ks ++ [k]) (akeys d) := by
  induction ps generalizing d with
  | nil => rfl
  | cons p ps ih =>
    show akeys (insFold (dictInsert d p.1 p.2) ps) = _
    rw [ih, akeys_dictInsert]
    rfl

/-- Folding the last-binding scan from an arbitrary accumulator. -/
theorem lastVal_from (ps : List (String × String)) (k : String)
    (acc : Option String) :
    ps.foldl (fun acc p => if p.1 = k then some p.2 else acc) acc =
      match lastVal ps k with
      | some v => some v
      | none => acc := by
  induction ps generalizing acc with
  | nil => simp [lastVal]
  | cons p ps ih =>
    show ps.foldl _ (if p.1 = k then some p.2 else acc) = _
    rw [ih]
    show _ = (match ps.foldl _ (if p.1 = k then some p.2 else none) with
      | some v => some v
      | none => acc)
    rw [ih (if p.1 = k then some p.2 else none)]
    cases lastVal ps k <;> by_cases h : p.1 = k <;> simp [h]

/-- Lookup in a fold of dict assignments: the value of the last binding of
the key, else the starting dict's value. -/
theorem alookup_insFold (ps : List (String × String))
    (d : List (String × String)) (k : String) :
    alookup (insFold d ps) k =
      match lastVal ps k with
      | some v => some v
      | none => alookup d k := by
  induction ps generalizing d with
  | nil => simp [insFold, lastVal]
  | cons p ps ih =>
    show alookup (insFold (dictInsert d p.1 p.2) ps) k = _
    rw [ih, alookup_dictInsert]
    show _ = (match ps.foldl _ (if p.1 = k then some p.2 else none) with
      | some v => some v
      | none => alookup d k)
    rw [lastVal_from ps k (if p.1 = k then some p.2 else none)]
    cases lastVal ps k with
    | some v => simp
    | none =>
      by_cases h : p.1 = k
      · simp [h]
      · have h2 : ¬ k = p.1 := fun hh => h hh.symm
        simp [h, h2]

/-- The flushing loop of `parse_diff` is the fold of dict assignments over
the raw hunks whose path is non-empty (the `if current_file:` truthiness
guard drops a hunk whose `b/`-side capture is the empty string). -/
theorem parseDiffGo_eq (ls : List String) :
    ∀ (chunks : List (String × String)) (cur : String) (acc : List String),
    parseDiffGo chunks cur acc ls =
      insFold chunks (((rawChunksGo cur acc ls).filter (fun q => q.1 ≠ "")).map
        (fun q => (q.1, joinN q.2))) := by
  induction ls with
  | nil =>
    intro chunks cur acc
    by_cases hcur : cur = "" <;>
      simp [parseDiffGo, rawChunksGo, flushChunk, insFold, hcur]
  | cons l ls ih =>
    intro chunks cur acc
    cases h : matchHeader l with
    | some m =>
      by_cases hcur : cur = "" <;>
        simp [parseDiffGo, rawChunksGo, flushChunk, h, ih, insFold, hcur]
    | none => simp [parseDiffGo, rawChunksGo, h, ih]

/-- The pre-header loop of `parse_diff` is the fold of dict assignments
over the non-empty-path raw hunks. -/
theorem parse_diff_go0_eq (ls : List String) :
    parse_diff_go0 ls =
      insFold [] (((rawChunks ls).filter (fun q => q.1 ≠ "")).map
        (fun q => (q.1, joinN q.2))) := by
  induction ls with
  | nil => rfl
  | cons l ls ih =>
    cases h : matchHeader l with
    | some m => simp [parse_diff_go0, rawChunks, h, parseDiffGo_eq]
    | none => simp [parse_diff_go0, rawChunks, h, ih]

/-- `parse_diff` is the fold of dict assignments over the non-empty-path
raw hunks of the diff. -/
theorem parse_diff_eq (text : String) :
    parse_diff text =
      insFold [] (((rawChunks (pySplitlines text)).filter (fun q => q.1 ≠ "")).map
        (fun q => (q.1, joinN q.2))) :=
  parse_diff_go0_eq (pySplitlines text)

/-- Unfolding the last-binding scan one binding at a time. -/
theorem lastVal_cons (q : String × String) (ps : List (String × String))
    (p : String) :
    lastVal (q :: ps) p =
      match lastVal ps p with
      | some v => some v
      | none => if q.1 = p then some q.2 else none := by
  show ps.foldl _ (if q.1 = p then some q.2 else none) = _
  exact lastVal_from ps p _

/-- For a non-empty path, dropping the empty-path hunks does not change the
last binding of that path. -/
theorem lastVal_filter_map (ps : List (String × List String)) (p : String)
    (hp : p ≠ "") :
    lastVal ((ps.filter (fun q => q.1 ≠ "")).map (fun q => (q.1, joinN q.2))) p =
      lastVal (ps.map (fun q => (q.1, joinN q.2))) p := by
  induction ps with
  | nil => rfl
  | cons q ps ih =>
    by_cases hq : q.1 = ""
    · have hqp : ¬ ("" = p) := fun hh => hp hh.symm
      have hfil : (q :: ps).filter (fun q => q.1 ≠ "") =
          ps.filter (fun q => q.1 ≠ "") := by
        simp [List.filter_cons, hq]
      rw [hfil, ih, List.map_cons, lastVal_cons]
      cases lastVal (ps.map (fun q => (q.1, joinN q.2))) p <;> simp [hq, hqp]
    · have hfil : (q :: ps).filter (fun q => q.1 ≠ "") =
          q :: ps.filter (fun q => q.1 ≠ "") := by
        simp [List.filter_cons, hq]
      rw [hfil, List.map_cons, List.map_cons, lastVal_cons, lastVal_cons, ih]

/-- The empty path never carries a binding once empty-path hunks are
dropped. -/
theorem lastVal_empty_key (ps : List (String × List String)) :
    lastVal ((ps.filter (fun q => q.1 ≠ "")).map (fun q => (q.1, joinN q.2))) "" =
      none := by
  induction ps with
  | nil => rfl
  | cons q ps ih =>
    by_cases hq : q.1 = ""
    · simpa [List.filter_cons, hq] using ih
    · have hfil : (q :: ps).filter (fun q => q.1 ≠ "") =
          q :: ps.filter (fun q => q.1 ≠ "") := by
        simp [List.filter_cons, hq]
      rw [hfil, List.map_cons, lastVal_cons, ih]
      simp [hq]

/-- The diff text of the C4 counterexample: the path `p` appears in two
separate `diff --git` headers with the path `q` in between. -/
def diffC4 : String :=
  "diff --git a/x b/p\nA\ndiff --git a/y b/q\nB\ndiff --git a/z b/p\nC"

/-- Counterexample for C4: with the same `b/`-side path `p` in two headers,
the chunk stored for `p` is only the hunk of the LAST header (the earlier
assignment is overwritten), not the concatenation of both hunks — the line
`A` of the first `p` hunk appears in no chunk. -/
theorem c4_counter_duplicate_path_overwrites :
    parse_diff diffC4 =
      [("p", "diff --git a/z b/p\nC"), ("q", "diff --git a/y b/q\nB")] ∧
    "A" ∉ pySplitlines "diff --git a/z b/p\nC" ∧
    "A" ∉ pySplitlines "diff --git a/y b/q\nB" := by
  refine ⟨by rfl, by decide, by decide⟩

/-- C4 as amended: keys of the chunk map are unique and ordered by first
appearance of each stored path; a hunk whose `b/`-side capture is the
empty string is never stored (the `if current_file:` truthiness guard);
and the chunk stored for a path that appears in several `diff --git`
headers is the joined lines of its LAST hunk only (header line included) —
each later hunk overwrites the earlier one rather than being concatenated
to it. -/
theorem c4_last_hunk_wins (text : String) :
    (akeys (parse_diff text)).Nodup ∧
    akeys (parse_diff text) =
      firstDedup (((rawChunks (pySplitlines text)).filter
        (fun q => q.1 ≠ "")).map (·.1)) ∧
    (∀ p, alookup (parse_diff text) p =
      lastVal (((rawChunks (pySplitlines text)).filter (fun q => q.1 ≠ "")).map
        (fun q => (q.1, joinN q.2))) p) ∧
    (∀ p, p ≠ "" → alookup (parse_diff text) p =
      lastVal ((rawChunks (pySplitlines text)).map (fun q => (q.1, joinN q.2))) p) ∧
    alookup (parse_diff text) "" = none := by
  have hkey : ∀ p, alookup (parse_diff text) p =
      lastVal (((rawChunks (pySplitlines text)).filter (fun q => q.1 ≠ "")).map
        (fun q => (q.1, joinN q.2))) p := by
    intro p
    rw [parse_diff_eq, alookup_insFold]
    cases lastVal (((rawChunks (pySplitlines text)).filter (fun q => q.1 ≠ "")).map
        (fun q => (q.1, joinN q.2))) p <;>
      simp [alookup]
  refine ⟨?_, ?_, hkey, fun p hp => ?_, ?_⟩
  · rw [parse_diff_eq]
    exact nodup_insFold _ _ (by simp [akeys])
  · rw [parse_diff_eq, akeys_insFold]
    simp [akeys, firstDedup, List.map_map]
    rfl
  · rw [hkey p, lastVal_filter_map _ _ hp]
  · rw [hkey "", lastVal_empty_key]

/-- Witness for C4 as amended: on the duplicate-path diff the stored chunk
for the non-empty path `p` is the last binding among its hunks. -/
theorem c4_last_hunk_wins_witness :
    alookup (parse_diff diffC4) "p" =
      lastVal ((rawChunks (pySplitlines diffC4)).map
        (fun q => (q.1, joinN q.2))) "p" :=
  (c4_last_hunk_wins diffC4).2.2.2.1 "p" (by decide)

end CodexReview
